import Mathlib

/-!
Shallow embedding of `gdelt_realtime_downloader.py` (v0.5, 2025-07-24).

The pure string helpers (`safe_filename`, `extract_year`, the body-scanning
part of `poll_once`) are translated directly.  The stateful pieces — the
per-stream cycle step inside `run`, the scheduler loop with its shared
backoff, and the filesystem effects of `download_zip` — are embedded as
explicit state-passing functions over small state types, with the outcomes
of the network and archive operations supplied as environment parameters.
-/

/-- ASCII whitespace characters handled by Python `str.strip()` and
`str.split()` (unicode whitespace is ignored by this model). -/
def pyIsSpace (c : Char) : Bool :=
  c == ' ' || c == '\t' || c == '\n' || c == '\r' || c == '\x0b' || c == '\x0c'

/-- Line-break characters of Python `str.splitlines`.  Splitting at every
break character cuts `\r\n` into two boundaries; the extra empty piece is
removed by the non-empty filter in `candidateLines`, so the resulting
candidate lines agree with the Python code. -/
def isLineBreak (c : Char) : Bool :=
  c == '\n' || c == '\r' || c == '\x0b' || c == '\x0c' ||
  c == '\x1c' || c == '\x1d' || c == '\x1e' || c == '\x85' ||
  c == '\u2028' || c == '\u2029'

/-- Split a character list at every character satisfying `p`, keeping empty
pieces (the semantics of `String.split`, by structural recursion so that the
kernel can evaluate it). -/
def splitCharsBy (p : Char → Bool) : List Char → List (List Char)
  | [] => [[]]
  | c :: cs =>
      let r := splitCharsBy p cs
      if p c then [] :: r
      else
        match r with
        | [] => [[c]]
        | h :: t => (c :: h) :: t

/-- Split a string at every character satisfying `p`. -/
def pySplit (s : String) (p : Char → Bool) : List String :=
  (splitCharsBy p s.data).map (fun l => ⟨l⟩)

/-- Python `str.strip()` restricted to ASCII whitespace. -/
def pyStrip (s : String) : String :=
  ⟨((s.data.dropWhile pyIsSpace).reverse.dropWhile pyIsSpace).reverse⟩

/-- Python `str.split()` with no separator: split on whitespace, dropping
empty pieces. -/
def pySplitWs (s : String) : List String :=
  (pySplit s pyIsSpace).filter (fun t => !(t == ""))

/-- Python `s.endswith(suf)`. -/
def pyEndsWith (s suf : String) : Bool :=
  suf.data.isSuffixOf s.data

/-- The non-empty stripped lines of a pointer body (`poll_once`, line 85). -/
def candidateLines (body : String) : List String :=
  ((pySplit body isLineBreak).map pyStrip).filter (fun l => !(l == ""))

/-- The scan loop of `poll_once` (lines 86-90): the first line ending in the
archive suffix yields its last whitespace-separated token (`parts[-1]`). -/
def resolveLines : List String → Option String
  | [] => none
  | line :: rest =>
      if pyEndsWith line ".gkg.csv.zip" then some ((pySplitWs line).getLastD "")
      else resolveLines rest

/-- Pure content of `poll_once`: resolve a pointer body to the newest
archive URL, or `none` when the body is malformed. -/
def resolveBody (body : String) : Option String :=
  resolveLines (candidateLines body)

/-- The resolver as the specification words it: map "take the last
whitespace token" over the first candidate line that ends with the fixed
suffix. -/
def resolveBodySpec (body : String) : Option String :=
  ((candidateLines body).find? (fun l => pyEndsWith l ".gkg.csv.zip")).map
    (fun l => (pySplitWs l).getLastD "")

/-- Function `safe_filename` (line 48): `url.rsplit("/", 1)[-1]`, the part of the URL
after the last slash. -/
def safe_filename (url : String) : String :=
  ⟨(url.data.reverse.takeWhile (fun c => !(c == '/'))).reverse⟩

/-- Function `extract_year` (lines 52-54): first four characters of the artifact
filename. -/
def extract_year (ts_filename : String) : String :=
  ⟨ts_filename.data.take 4⟩

/-- The command-line arguments consumed by `run` (see `get_args`,
lines 175-191). -/
structure Args where
  output : String
  interval : Nat
  skip_extract : Bool
  raw_subdir_eng : String
  raw_subdir_trans : String
  csv_subdir_eng : String
  csv_subdir_trans : String
  retries : Nat
  verbose : Bool
  ignore_malformed : Bool
deriving DecidableEq, Repr

/-- The exception classes distinguished by the handlers in `run`
(lines 156-167). -/
inductive PyExn where
  | requestException
  | badZipFile
  | keyboardInterrupt
  | otherError
deriving DecidableEq, Repr

/-- Whether an exception class is a subclass of Python `Exception`, hence
caught by the inner `except Exception` handlers of the cycle body
(`KeyboardInterrupt` derives only from `BaseException` and escapes them). -/
def isExceptionSubclass : PyExn → Bool
  | .keyboardInterrupt => false
  | _ => true

/-- Observable actions of one per-stream cycle step: log lines and the
network transfer performed by `download_zip` for the archive. -/
inductive Event where
  | warnUnexpected (kind : String)
  | infoSkipOnDisk (kind name : String)
  | infoDownloading (kind name : String)
  | downloadTransfer (url : String)
  | infoDownloaded (kind name : String)
  | errorDownloadFailed (kind name : String)
  | infoExtracted (kind dir : String)
  | errorExtractFailed (kind name : String)
deriving DecidableEq, Repr

deriving instance DecidableEq for Except

/-- Per-stream environment for one cycle: the outcome of `poll_once`, and
the outcomes (`none` = success) of `download_zip` and `extract_zip` should
they be called. -/
structure StreamEnv where
  poll : Except PyExn (Option String)
  downloadExn : Option PyExn
  extractExn : Option PyExn
deriving DecidableEq, Repr

/-- State read and written by the cycle step of a stream: its `seen` set
and the set of archive paths present on disk. -/
structure StreamState where
  seen : List String
  disk : List String
deriving DecidableEq, Repr

/-- Result of one per-stream cycle step: the new state, the events emitted,
and the exception escaping the step, if any. -/
structure StepResult where
  state : StreamState
  events : List Event
  exn : Option PyExn
deriving DecidableEq, Repr

/-- Archive destination `Path(args.output) / year / raw_subdir / name`
(line 131). -/
def zipPathOf (args : Args) (raw_subdir name : String) : String :=
  args.output ++ "/" ++ extract_year name ++ "/" ++ raw_subdir ++ "/" ++ name

/-- Extraction directory `Path(args.output) / year / csv_subdir`
(line 146). -/
def outDirOf (args : Args) (csv_subdir name : String) : String :=
  args.output ++ "/" ++ extract_year name ++ "/" ++ csv_subdir

/-- Lines 143-152 of `run`: optional extraction then `seen.add(name)`.  An
extraction failure of class `Exception` is caught and the name is still
marked seen; an interrupt escapes before `seen.add`. -/
def extractAndMark (args : Args) (kind csv_subdir name : String)
    (extractExn : Option PyExn) (st : StreamState) (evs : List Event) : StepResult :=
  if args.skip_extract then ⟨⟨name :: st.seen, st.disk⟩, evs, none⟩
  else
    match extractExn with
    | none =>
        ⟨⟨name :: st.seen, st.disk⟩,
          evs ++ [.infoExtracted kind (outDirOf args csv_subdir name)], none⟩
    | some e =>
        if isExceptionSubclass e then
          ⟨⟨name :: st.seen, st.disk⟩, evs ++ [.errorExtractFailed kind name], none⟩
        else ⟨st, evs, some e⟩

/-- Lines 117-152 of `run`: the cycle step of one stream.  `poll_once` may raise;
a falsy link (`None` or `""`) is skipped, with a warning unless
`--ignore-malformed`; a seen name is skipped; an on-disk archive skips the
network transfer; a download failure of class `Exception` is caught leaving
the state unchanged; otherwise the archive lands on disk and extraction
runs. -/
def processStream (args : Args) (kind raw_subdir csv_subdir : String)
    (env : StreamEnv) (st : StreamState) : StepResult :=
  match env.poll with
  | .error e => ⟨st, [], some e⟩
  | .ok none =>
      if args.ignore_malformed then ⟨st, [], none⟩
      else ⟨st, [.warnUnexpected kind], none⟩
  | .ok (some link) =>
      if link = "" then
        if args.ignore_malformed then ⟨st, [], none⟩
        else ⟨st, [.warnUnexpected kind], none⟩
      else
        let name := safe_filename link
        if name ∈ st.seen then ⟨st, [], none⟩
        else
          let zip_path := zipPathOf args raw_subdir name
          if zip_path ∈ st.disk then
            extractAndMark args kind csv_subdir name env.extractExn st
              [.infoSkipOnDisk kind name]
          else
            match env.downloadExn with
            | some e =>
                if isExceptionSubclass e then
                  ⟨st, [.infoDownloading kind name, .downloadTransfer link,
                        .errorDownloadFailed kind name], none⟩
                else ⟨st, [.infoDownloading kind name, .downloadTransfer link], some e⟩
            | none =>
                extractAndMark args kind csv_subdir name env.extractExn
                  ⟨st.seen, zip_path :: st.disk⟩
                  [.infoDownloading kind name, .downloadTransfer link,
                   .infoDownloaded kind name]

/-- Scheduler-level state: both `seen` sets, the on-disk archives, and the
shared `backoff` value (line 109). -/
structure LoopState where
  seen_eng : List String
  seen_trans : List String
  disk : List String
  backoff : Nat
deriving DecidableEq, Repr

/-- Environment of one full cycle: the outcomes for the ENG stream followed
by the TRANS stream. -/
structure CycleEnv where
  eng : StreamEnv
  trans : StreamEnv
deriving DecidableEq, Repr

/-- Lines 113-152 of `run`: one pass over both streams in fixed order.  An
exception escaping the ENG step skips the TRANS step; state mutations made
before the exception persist. -/
def runCycle (args : Args) (env : CycleEnv) (st : LoopState) :
    LoopState × List Event × Option PyExn :=
  let r1 := processStream args "ENG" args.raw_subdir_eng args.csv_subdir_eng env.eng
              ⟨st.seen_eng, st.disk⟩
  match r1.exn with
  | some e =>
      (⟨r1.state.seen, st.seen_trans, r1.state.disk, st.backoff⟩, r1.events, some e)
  | none =>
      let r2 := processStream args "TRANS" args.raw_subdir_trans args.csv_subdir_trans
                  env.trans ⟨st.seen_trans, r1.state.disk⟩
      (⟨r1.state.seen, r2.state.seen, r2.state.disk, st.backoff⟩,
        r1.events ++ r2.events, r2.exn)

/-- What the scheduler does at the end of one `while True` iteration. -/
inductive SchedAction where
  | sleepFor (secs : Nat)
  | exitCode (code : Nat)
deriving DecidableEq, Repr

/-- Lines 111-167 of `run`: one iteration of the scheduler loop.  A clean
cycle sleeps `args.interval` and resets the backoff; a network/zip failure
sleeps the current backoff and doubles it up to the 1800 s cap; an interrupt
exits with status 0; any other exception exits with status 1 unless
`--ignore-malformed`, in which case it sleeps the current backoff without
changing it. -/
def loopIter (args : Args) (env : CycleEnv) (st : LoopState) :
    LoopState × List SchedAction × List Event :=
  match runCycle args env st with
  | (st1, evs, exn) =>
    match exn with
    | none =>
        (⟨st1.seen_eng, st1.seen_trans, st1.disk, args.interval⟩,
          [.sleepFor args.interval], evs)
    | some .requestException =>
        (⟨st1.seen_eng, st1.seen_trans, st1.disk, min (st1.backoff * 2) 1800⟩,
          [.sleepFor st1.backoff], evs)
    | some .badZipFile =>
        (⟨st1.seen_eng, st1.seen_trans, st1.disk, min (st1.backoff * 2) 1800⟩,
          [.sleepFor st1.backoff], evs)
    | some .keyboardInterrupt => (st1, [.exitCode 0], evs)
    | some .otherError =>
        if args.ignore_malformed then (st1, [.sleepFor st1.backoff], evs)
        else (st1, [.exitCode 1], evs)

/-- The sleep durations performed by `n` consecutive scheduler iterations
under a fixed cycle environment. -/
def iterSleeps (args : Args) (env : CycleEnv) : Nat → LoopState → List Nat
  | 0, _ => []
  | n + 1, st =>
      match loopIter args env st with
      | (st1, acts, _) =>
          (acts.filterMap fun a =>
            match a with
            | .sleepFor s => some s
            | .exitCode _ => none) ++ iterSleeps args env n st1

/-- The default configuration of `get_args`. -/
def argsDefault : Args :=
  ⟨"data", 120, false, "rawdata_en", "rawdata_tr", "csv_en", "csv_tr", 3, false, false⟩

/-- A cycle environment in which polling the ENG pointer raises a network
error. -/
def envNetFail : CycleEnv :=
  ⟨⟨.error .requestException, none, none⟩, ⟨.ok none, none, none⟩⟩

/-- Python `Path.with_suffix` at the level of a single path component: replace the
substring from the last dot onward, provided that dot is neither the first
nor the last character of the name; otherwise append the new suffix
(CPython `pathlib` semantics). -/
def pyWithSuffixName (name : List Char) (suf : List Char) : List Char :=
  let rev := name.reverse
  let afterRev := rev.takeWhile (fun c => !(c == '.'))
  match rev.dropWhile (fun c => !(c == '.')) with
  | [] => name ++ suf
  | _ :: beforeRev =>
      if beforeRev = [] then name ++ suf
      else if afterRev = [] then name ++ suf
      else beforeRev.reverse ++ suf

/-- Python `Path.with_suffix` on a full path string: apply `pyWithSuffixName` to
the final component (line 59: `tmp = dest.with_suffix(".part")`). -/
def pyWithSuffix (p : String) (suf : String) : String :=
  let rev := p.data.reverse
  ⟨(rev.dropWhile (fun c => !(c == '/'))).reverse ++
    pyWithSuffixName (rev.takeWhile (fun c => !(c == '/'))).reverse suf.data⟩

/-- All proper ancestor directories created by
`dest.parent.mkdir(parents=True, exist_ok=True)` (line 58). -/
def parentDirs (p : String) : List String :=
  let comps := (pySplit p (fun c => c == '/')).dropLast
  (List.range comps.length).map (fun i => String.intercalate "/" (comps.take (i + 1)))

/-- A filesystem: file contents by path (bytes as naturals), plus the set of
existing directories. -/
structure FS where
  files : String → Option (List Nat)
  dirs : List String

/-- The primitive filesystem operations `download_zip` performs. -/
inductive FSOp where
  | mkdirParents (p : String)
  | openTrunc (p : String)
  | writeChunk (p : String) (c : List Nat)
  | rename (src dst : String)
deriving DecidableEq, Repr

/-- Effect of one filesystem operation. -/
def applyOp (fs : FS) : FSOp → FS
  | .mkdirParents p => ⟨fs.files, parentDirs p ++ fs.dirs⟩
  | .openTrunc p => ⟨fun q => if q = p then some [] else fs.files q, fs.dirs⟩
  | .writeChunk p c =>
      ⟨fun q => if q = p then some ((fs.files p).getD [] ++ c) else fs.files q, fs.dirs⟩
  | .rename src dst =>
      ⟨fun q => if q = dst then fs.files src else if q = src then none else fs.files q,
        fs.dirs⟩

/-- Apply a sequence of filesystem operations. -/
def applyOps (fs : FS) (ops : List FSOp) : FS :=
  ops.foldl applyOp fs

/-- The `chunk_size=1 << 20` of `iter_content` (line 63). -/
def chunkSizeBytes : Nat := 1 <<< 20

/-- The operation sequence of `download_zip` (lines 57-67): create parent
directories, open the `.part` temporary for (truncating) write, stream the
non-empty chunks into it, and finally rename it onto the destination.  A
failure part-way is modelled by applying only a strict prefix of the
sequence. -/
def downloadOps (dest : String) (body : List (List Nat)) : List FSOp :=
  let tmp := pyWithSuffix dest ".part"
  FSOp.mkdirParents dest :: FSOp.openTrunc tmp ::
    ((body.filter (fun c => !c.isEmpty)).map (fun c => FSOp.writeChunk tmp c) ++
      [FSOp.rename tmp dest])

/-- Concrete inputs used by several witnesses: the worked end-to-end example
of the specification. -/
def linkEx : String := "http://data.gdeltproject.org/gdeltv2/20250724144500.gkg.csv.zip"

/-- The artifact filename of `linkEx`. -/
def nameEx : String := "20250724144500.gkg.csv.zip"

/-- A cycle environment in which both pointers come back malformed. -/
def envMalformed : CycleEnv := ⟨⟨Except.ok none, none, none⟩, ⟨Except.ok none, none, none⟩⟩

/-- The default configuration with `--ignore-malformed` set. -/
def argsTolerant : Args :=
  ⟨"data", 120, false, "rawdata_en", "rawdata_tr", "csv_en", "csv_tr", 3, false, true⟩

/-- A cycle environment in which the ENG step raises an unrecognized
exception. -/
def envOtherFail : CycleEnv :=
  ⟨⟨Except.error PyExn.otherError, none, none⟩, ⟨Except.ok none, none, none⟩⟩

/-- The per-cycle event lists a single stream produces over a sequence of
cycles, starting from a given state. -/
def streamTrace (args : Args) (kind raw_subdir csv_subdir : String) :
    List StreamEnv → StreamState → List (List Event)
  | [], _ => []
  | env :: rest, st =>
      (processStream args kind raw_subdir csv_subdir env st).events ::
        streamTrace args kind raw_subdir csv_subdir rest
          (processStream args kind raw_subdir csv_subdir env st).state

/-- How many cycles of a trace completed a download of the given artifact
name. -/
def countDownloads (kind name : String) (tr : List (List Event)) : Nat :=
  (tr.filter (fun evs => decide (Event.infoDownloaded kind name ∈ evs))).length

/-- Which single file an operation may touch (`mkdirParents` touches none,
`rename` is excluded). -/
def touchesOnlyFile (tmp : String) : FSOp → Prop
  | .mkdirParents _ => True
  | .openTrunc p => p = tmp
  | .writeChunk p _ => p = tmp
  | .rename _ _ => False

/-- Example directory part for witnesses. -/
def dirEx : List Char := "data/2025/rawdata_en".data

/-- Example stem (filename without `.zip`) for witnesses. -/
def stemEx : List Char := "20250724144500.gkg.csv".data

/-- An empty filesystem for witnesses. -/
def fsEx : FS := ⟨fun _ => none, []⟩

/-- An example streamed body (three chunks, one empty). -/
def bodyEx : List (List Nat) := [[1, 2], [], [3]]

/-- Unfolding `resolveLines` as a find-and-map over the candidate lines. -/
lemma resolveLines_eq_find (ls : List String) :
    resolveLines ls =
      (ls.find? (fun l => pyEndsWith l ".gkg.csv.zip")).map
        (fun l => (pySplitWs l).getLastD "") := by
  induction ls with
  | nil => rfl
  | cons l rest ih =>
      cases h : pyEndsWith l ".gkg.csv.zip" with
      | false => simpa [resolveLines, h, List.find?] using ih
      | true => simp [resolveLines, h, List.find?]

/-- Function `extractAndMark` never changes the on-disk archive set. -/
lemma extractAndMark_disk (args : Args) (kind csv_subdir name : String)
    (ee : Option PyExn) (st : StreamState) (evs : List Event) :
    (extractAndMark args kind csv_subdir name ee st evs).state.disk = st.disk := by
  unfold extractAndMark
  split
  · rfl
  · split
    · rfl
    · split <;> rfl

/-- Every event `extractAndMark` emits is either carried over or one of the
two extraction log lines. -/
lemma extractAndMark_events_sub (args : Args) (kind csv_subdir name : String)
    (ee : Option PyExn) (st : StreamState) (evs : List Event) :
    ∀ ev ∈ (extractAndMark args kind csv_subdir name ee st evs).events,
      ev ∈ evs ∨ (∃ d, ev = Event.infoExtracted kind d) ∨
        ev = Event.errorExtractFailed kind name := by
  unfold extractAndMark
  split
  · intro ev h; exact Or.inl h
  · split
    · intro ev h
      rcases List.mem_append.mp h with h | h
      · exact Or.inl h
      · simp at h; exact Or.inr (Or.inl ⟨_, h⟩)
    · split
      · intro ev h
        rcases List.mem_append.mp h with h | h
        · exact Or.inl h
        · simp at h; exact Or.inr (Or.inr h)
      · intro ev h; exact Or.inl h

/-- Branch lemma: a successful download step lands the archive on disk and
hands over to the extraction phase. -/
lemma processStream_download_success (args : Args) (kind raw_subdir csv_subdir : String)
    (env : StreamEnv) (st : StreamState) (link : String)
    (hpoll : env.poll = Except.ok (some link)) (hlink : ¬ link = "")
    (hseen : safe_filename link ∉ st.seen)
    (hdisk : zipPathOf args raw_subdir (safe_filename link) ∉ st.disk)
    (hdl : env.downloadExn = none) :
    processStream args kind raw_subdir csv_subdir env st =
      extractAndMark args kind csv_subdir (safe_filename link) env.extractExn
        ⟨st.seen, zipPathOf args raw_subdir (safe_filename link) :: st.disk⟩
        [.infoDownloading kind (safe_filename link), .downloadTransfer link,
         .infoDownloaded kind (safe_filename link)] := by
  obtain ⟨poll, dl, ex⟩ := env
  simp only at hpoll hdl
  subst hpoll hdl
  simp [processStream, hlink, hseen, hdisk]

/-- Branch lemma: a download failure of class `Exception` leaves the state
unchanged and raises nothing. -/
lemma processStream_download_fail (args : Args) (kind raw_subdir csv_subdir : String)
    (env : StreamEnv) (st : StreamState) (link : String) (e : PyExn)
    (hpoll : env.poll = Except.ok (some link)) (hlink : ¬ link = "")
    (hseen : safe_filename link ∉ st.seen)
    (hdisk : zipPathOf args raw_subdir (safe_filename link) ∉ st.disk)
    (hdl : env.downloadExn = some e) (he : isExceptionSubclass e = true) :
    processStream args kind raw_subdir csv_subdir env st =
      ⟨st, [.infoDownloading kind (safe_filename link), .downloadTransfer link,
            .errorDownloadFailed kind (safe_filename link)], none⟩ := by
  obtain ⟨poll, dl, ex⟩ := env
  simp only at hpoll hdl
  subst hpoll hdl
  simp [processStream, hlink, hseen, hdisk, he]

/-- Branch lemma: an archive already on disk skips the transfer and goes
straight to the extraction phase. -/
lemma processStream_skip_on_disk (args : Args) (kind raw_subdir csv_subdir : String)
    (env : StreamEnv) (st : StreamState) (link : String)
    (hpoll : env.poll = Except.ok (some link)) (hlink : ¬ link = "")
    (hseen : safe_filename link ∉ st.seen)
    (hdisk : zipPathOf args raw_subdir (safe_filename link) ∈ st.disk) :
    processStream args kind raw_subdir csv_subdir env st =
      extractAndMark args kind csv_subdir (safe_filename link) env.extractExn st
        [.infoSkipOnDisk kind (safe_filename link)] := by
  obtain ⟨poll, dl, ex⟩ := env
  simp only at hpoll
  subst hpoll
  simp [processStream, hlink, hseen, hdisk]

/-- Claim C3: for every pointer body, `poll_once` splits the body into
non-empty trimmed lines and returns the last whitespace-separated token of
the first line ending in `.gkg.csv.zip`, or `none` (not an exception) when
no line matches; leading `<size> <hash>` fields are ignored, and resolving
the same body twice yields the same result. -/
theorem C3_pointer_resolution :
    (∀ body, resolveBody body = resolveBodySpec body) ∧
    resolveBody "1234 abcd1234 http://data.gdeltproject.org/gdeltv2/20250724144500.gkg.csv.zip" =
      some "http://data.gdeltproject.org/gdeltv2/20250724144500.gkg.csv.zip" ∧
    resolveBody "no archive line here\nanother line" = none ∧
    (∀ body, resolveBody body = resolveBody body) :=
  ⟨fun _ => resolveLines_eq_find _, by decide, by decide, fun _ => rfl⟩

/-- Claim C9: the year segment is the first four characters of the artifact
filename (`20250724144500.gkg.csv.zip` yields `2025`); the archive of a fresh artifact is stored at `output/<year>/<raw_subdir>/<name>` and extraction
targets `output/<year>/<csv_subdir>`, all computed deterministically from
the resolved link and static configuration. -/
theorem C9_year_partitioning_layout :
    ∀ (args : Args) (kind raw_subdir csv_subdir : String) (env : StreamEnv)
      (st : StreamState) (link : String),
      env.poll = Except.ok (some link) → link ≠ "" →
      safe_filename link ∉ st.seen →
      zipPathOf args raw_subdir (safe_filename link) ∉ st.disk →
      env.downloadExn = none →
      (processStream args kind raw_subdir csv_subdir env st).state.disk =
        (args.output ++ "/" ++ extract_year (safe_filename link) ++ "/" ++ raw_subdir ++
          "/" ++ safe_filename link) :: st.disk ∧
      (args.skip_extract = false → env.extractExn = none →
        Event.infoExtracted kind
            (args.output ++ "/" ++ extract_year (safe_filename link) ++ "/" ++ csv_subdir) ∈
          (processStream args kind raw_subdir csv_subdir env st).events) ∧
      extract_year (safe_filename link) = ⟨(safe_filename link).data.take 4⟩ ∧
      extract_year "20250724144500.gkg.csv.zip" = "2025" := by
  intro args kind raw_subdir csv_subdir env st link hpoll hlink hseen hdisk hdl
  rw [processStream_download_success args kind raw_subdir csv_subdir env st link hpoll hlink
    hseen hdisk hdl]
  refine ⟨?_, ?_, rfl, by decide⟩
  · rw [extractAndMark_disk]
    rfl
  · intro hskip hex
    rw [hex]
    unfold extractAndMark
    rw [hskip]
    simp [outDirOf]

/-- Witness for C9 at the worked example of the specification. -/
theorem C9_year_partitioning_layout_witness :
    (processStream argsDefault "ENG" "rawdata_en" "csv_en" ⟨Except.ok (some linkEx), none, none⟩
        ⟨[], []⟩).state.disk =
      ["data" ++ "/" ++ extract_year (safe_filename linkEx) ++ "/" ++ "rawdata_en" ++ "/" ++
        safe_filename linkEx] ∧
    Event.infoExtracted "ENG"
        ("data" ++ "/" ++ extract_year (safe_filename linkEx) ++ "/" ++ "csv_en") ∈
      (processStream argsDefault "ENG" "rawdata_en" "csv_en" ⟨Except.ok (some linkEx), none, none⟩
        ⟨[], []⟩).events := by
  have h := C9_year_partitioning_layout argsDefault "ENG" "rawdata_en" "csv_en"
    ⟨Except.ok (some linkEx), none, none⟩ ⟨[], []⟩ linkEx rfl (by decide) (by decide) (by decide)
    rfl
  exact ⟨h.1, h.2.1 rfl rfl⟩

/-- Claim C6: a download failure leaves the artifact name out of `seen` and
the archive absent from its destination, so the next cycle can retry it. -/
theorem C6_download_failure_retryable :
    ∀ (args : Args) (kind raw_subdir csv_subdir : String) (env : StreamEnv)
      (st : StreamState) (link : String) (e : PyExn),
      env.poll = Except.ok (some link) → link ≠ "" →
      safe_filename link ∉ st.seen →
      zipPathOf args raw_subdir (safe_filename link) ∉ st.disk →
      env.downloadExn = some e → isExceptionSubclass e = true →
      (processStream args kind raw_subdir csv_subdir env st).state = st ∧
      (processStream args kind raw_subdir csv_subdir env st).exn = none ∧
      safe_filename link ∉ (processStream args kind raw_subdir csv_subdir env st).state.seen ∧
      zipPathOf args raw_subdir (safe_filename link) ∉
        (processStream args kind raw_subdir csv_subdir env st).state.disk := by
  intro args kind raw_subdir csv_subdir env st link e hpoll hlink hseen hdisk hdl he
  rw [processStream_download_fail args kind raw_subdir csv_subdir env st link e hpoll hlink
    hseen hdisk hdl he]
  exact ⟨rfl, rfl, hseen, hdisk⟩

/-- Witness for C6: a failing download of the example artifact changes
nothing. -/
theorem C6_download_failure_retryable_witness :
    (processStream argsDefault "ENG" "rawdata_en" "csv_en"
        ⟨Except.ok (some linkEx), some PyExn.requestException, none⟩ ⟨[], []⟩).state =
      ⟨[], []⟩ ∧
    (processStream argsDefault "ENG" "rawdata_en" "csv_en"
        ⟨Except.ok (some linkEx), some PyExn.requestException, none⟩ ⟨[], []⟩).exn = none := by
  have h := C6_download_failure_retryable argsDefault "ENG" "rawdata_en" "csv_en"
    ⟨Except.ok (some linkEx), some PyExn.requestException, none⟩ ⟨[], []⟩ linkEx
    PyExn.requestException rfl (by decide) (by decide) (by decide) rfl rfl
  exact ⟨h.1, h.2.1⟩

/-- Claim C7: an extraction failure is logged, the name is nevertheless
added to `seen`, and the downloaded archive stays on disk at its
destination. -/
theorem C7_extract_failure_marks_seen :
    ∀ (args : Args) (kind raw_subdir csv_subdir : String) (env : StreamEnv)
      (st : StreamState) (link : String) (e : PyExn),
      env.poll = Except.ok (some link) → link ≠ "" →
      safe_filename link ∉ st.seen →
      zipPathOf args raw_subdir (safe_filename link) ∉ st.disk →
      env.downloadExn = none →
      args.skip_extract = false →
      env.extractExn = some e → isExceptionSubclass e = true →
      (processStream args kind raw_subdir csv_subdir env st).state.seen =
        safe_filename link :: st.seen ∧
      zipPathOf args raw_subdir (safe_filename link) ∈
        (processStream args kind raw_subdir csv_subdir env st).state.disk ∧
      Event.errorExtractFailed kind (safe_filename link) ∈
        (processStream args kind raw_subdir csv_subdir env st).events ∧
      (processStream args kind raw_subdir csv_subdir env st).exn = none := by
  intro args kind raw_subdir csv_subdir env st link e hpoll hlink hseen hdisk hdl hskip hex he
  rw [processStream_download_success args kind raw_subdir csv_subdir env st link hpoll hlink
    hseen hdisk hdl, hex]
  simp [extractAndMark, hskip, he]

/-- Witness for C7: a corrupt archive is still marked seen and kept. -/
theorem C7_extract_failure_marks_seen_witness :
    (processStream argsDefault "ENG" "rawdata_en" "csv_en"
        ⟨Except.ok (some linkEx), none, some PyExn.badZipFile⟩ ⟨[], []⟩).state.seen =
      [safe_filename linkEx] ∧
    Event.errorExtractFailed "ENG" (safe_filename linkEx) ∈
      (processStream argsDefault "ENG" "rawdata_en" "csv_en"
        ⟨Except.ok (some linkEx), none, some PyExn.badZipFile⟩ ⟨[], []⟩).events := by
  have h := C7_extract_failure_marks_seen argsDefault "ENG" "rawdata_en" "csv_en"
    ⟨Except.ok (some linkEx), none, some PyExn.badZipFile⟩ ⟨[], []⟩ linkEx PyExn.badZipFile
    rfl (by decide) (by decide) (by decide) rfl rfl rfl rfl
  exact ⟨h.1, h.2.2.1⟩

/-- Claim C5 counterexample: with malformed tolerance disabled
(`ignore_malformed = false`), a malformed pointer is logged and merely
skipped — the step raises nothing, state is unchanged, and the scheduler
iteration ends in a normal sleep, not in termination.  This contradicts the
claim that the condition is "treated as fatal" when tolerance is off. -/
theorem C5_malformed_not_fatal_counterexample :
    argsDefault.ignore_malformed = false ∧
    processStream argsDefault "ENG" "rawdata_en" "csv_en" ⟨Except.ok none, none, none⟩ ⟨[], []⟩ =
      ⟨⟨[], []⟩, [Event.warnUnexpected "ENG"], none⟩ ∧
    (loopIter argsDefault envMalformed ⟨[], [], [], 120⟩).2.1 = [SchedAction.sleepFor 120] := by
  decide

/-- Claim C5 (amended): when the resolver returns `None` the cycle
step of the stream is skipped with no state change and no exception, in both
configurations; the malformed-tolerance flag only decides whether a warning
is logged (tolerance enabled: silent skip; disabled: warning plus skip —
never fatal). -/
theorem C5_malformed_pointer_skip :
    ∀ (args : Args) (kind raw_subdir csv_subdir : String) (env : StreamEnv) (st : StreamState),
      env.poll = Except.ok none →
      (processStream args kind raw_subdir csv_subdir env st).state = st ∧
      (processStream args kind raw_subdir csv_subdir env st).exn = none ∧
      (processStream args kind raw_subdir csv_subdir env st).events =
        (if args.ignore_malformed then [] else [Event.warnUnexpected kind]) := by
  intro args kind raw_subdir csv_subdir env st hpoll
  obtain ⟨poll, dl, ex⟩ := env
  simp only at hpoll
  subst hpoll
  by_cases h : args.ignore_malformed <;> simp [processStream, h]

/-- Witness for the amended C5 with tolerance enabled: silent skip. -/
theorem C5_malformed_pointer_skip_witness :
    (processStream ⟨"data", 120, false, "rawdata_en", "rawdata_tr", "csv_en", "csv_tr", 3,
          false, true⟩
        "ENG" "rawdata_en" "csv_en" ⟨Except.ok none, none, none⟩ ⟨["a"], ["b"]⟩).state =
      ⟨["a"], ["b"]⟩ ∧
    (processStream ⟨"data", 120, false, "rawdata_en", "rawdata_tr", "csv_en", "csv_tr", 3,
          false, true⟩
        "ENG" "rawdata_en" "csv_en" ⟨Except.ok none, none, none⟩ ⟨["a"], ["b"]⟩).events = [] := by
  have h := C5_malformed_pointer_skip
    ⟨"data", 120, false, "rawdata_en", "rawdata_tr", "csv_en", "csv_tr", 3, false, true⟩
    "ENG" "rawdata_en" "csv_en" ⟨Except.ok none, none, none⟩ ⟨["a"], ["b"]⟩ rfl
  exact ⟨h.1, h.2.2⟩

/-- The backoff value after one scheduler iteration never depends on the
cycle body: `runCycle` leaves `backoff` untouched. -/
lemma runCycle_backoff (args : Args) (env : CycleEnv) (st : LoopState) :
    (runCycle args env st).1.backoff = st.backoff := by
  cases he : (processStream args "ENG" args.raw_subdir_eng args.csv_subdir_eng env.eng
      ⟨st.seen_eng, st.disk⟩).exn <;>
    simp [runCycle, he]

/-- Claim C4: on a retryable cycle failure (network or zip-format) the
scheduler sleeps the current backoff and doubles it, capped at 1800 s; with
base 120 the successive waits are 120, 240, 480, 960, 1800, 1800; one fully
successful cycle resets the backoff to the base poll interval. -/
theorem C4_backoff_policy :
    (∀ (args : Args) (env : CycleEnv) (st : LoopState) (e : PyExn),
        (runCycle args env st).2.2 = some e →
        e = PyExn.requestException ∨ e = PyExn.badZipFile →
        (loopIter args env st).2.1 = [SchedAction.sleepFor st.backoff] ∧
        (loopIter args env st).1.backoff = min (st.backoff * 2) 1800 ∧
        (loopIter args env st).1.backoff ≤ 1800) ∧
    (∀ (args : Args) (env : CycleEnv) (st : LoopState),
        (runCycle args env st).2.2 = none →
        (loopIter args env st).2.1 = [SchedAction.sleepFor args.interval] ∧
        (loopIter args env st).1.backoff = args.interval) ∧
    iterSleeps argsDefault envNetFail 6 ⟨[], [], [], 120⟩ = [120, 240, 480, 960, 1800, 1800] := by
  refine ⟨?_, ?_, by decide⟩
  · intro args env st e hexn hee
    have hb : (runCycle args env st).1.backoff = st.backoff := runCycle_backoff args env st
    rcases hrc : runCycle args env st with ⟨st1, evs, exn⟩
    rw [hrc] at hexn hb
    simp only at hexn hb
    subst hexn
    rcases hee with h | h <;> subst h <;>
      simp [loopIter, hrc, hb, Nat.min_le_right]
  · intro args env st hexn
    rcases hrc : runCycle args env st with ⟨st1, evs, exn⟩
    rw [hrc] at hexn
    simp only at hexn
    subst hexn
    simp [loopIter, hrc]

/-- Witness for C4: the first retryable failure at base interval 120 sleeps
120 s and doubles the backoff to 240. -/
theorem C4_backoff_policy_witness :
    (loopIter argsDefault envNetFail ⟨[], [], [], 120⟩).2.1 = [SchedAction.sleepFor 120] ∧
    (loopIter argsDefault envNetFail ⟨[], [], [], 120⟩).1.backoff = min (120 * 2) 1800 := by
  have h := C4_backoff_policy.1 argsDefault envNetFail ⟨[], [], [], 120⟩ PyExn.requestException
    (by decide) (Or.inl rfl)
  exact ⟨h.1, h.2.1⟩

/-- Claim C8 counterexample: with malformed tolerance configured, an
unrecognized exception makes the scheduler sleep the current backoff but
does NOT double it (120 stays 120, while doubling up to the cap would give
240), contradicting the claim that it "backs off like a retryable
failure, sleeping the current backoff interval and doubling it up to the
cap". -/
theorem C8_no_backoff_doubling_counterexample :
    (loopIter argsTolerant envOtherFail ⟨[], [], [], 120⟩).2.1 = [SchedAction.sleepFor 120] ∧
    (loopIter argsTolerant envOtherFail ⟨[], [], [], 120⟩).1.backoff = 120 ∧
    min (120 * 2) 1800 = 240 ∧ (120 : Nat) ≠ 240 := by
  decide

/-- Claim C8 (amended): an unrecognized exception reaching the scheduler
terminates the process with exit status 1 when malformed tolerance is not
configured; when it is configured, the scheduler sleeps the current backoff
interval and leaves the backoff value unchanged (it does not double it). -/
theorem C8_unrecognized_exception_handling :
    ∀ (args : Args) (env : CycleEnv) (st : LoopState),
      (runCycle args env st).2.2 = some PyExn.otherError →
      (args.ignore_malformed = false → (loopIter args env st).2.1 = [SchedAction.exitCode 1]) ∧
      (args.ignore_malformed = true →
        (loopIter args env st).2.1 = [SchedAction.sleepFor st.backoff] ∧
        (loopIter args env st).1.backoff = st.backoff) := by
  intro args env st hexn
  have hb : (runCycle args env st).1.backoff = st.backoff := runCycle_backoff args env st
  rcases hrc : runCycle args env st with ⟨st1, evs, exn⟩
  rw [hrc] at hexn hb
  simp only at hexn hb
  subst hexn
  constructor
  · intro hm; simp [loopIter, hrc, hm]
  · intro hm; simp [loopIter, hrc, hm, hb]

/-- Witness for the amended C8 in both configurations. -/
theorem C8_unrecognized_exception_handling_witness :
    (loopIter argsTolerant envOtherFail ⟨[], [], [], 240⟩).2.1 =
      [SchedAction.sleepFor 240] ∧
    (loopIter argsTolerant envOtherFail ⟨[], [], [], 240⟩).1.backoff = 240 ∧
    (loopIter argsDefault envOtherFail ⟨[], [], [], 240⟩).2.1 = [SchedAction.exitCode 1] := by
  have h1 := (C8_unrecognized_exception_handling argsTolerant envOtherFail ⟨[], [], [], 240⟩
    (by decide)).2 rfl
  have h2 := (C8_unrecognized_exception_handling argsDefault envOtherFail ⟨[], [], [], 240⟩
    (by decide)).1 rfl
  exact ⟨h1.1, h1.2, h2⟩

/-- The cycle step of a stream never removes an archive from disk. -/
lemma processStream_disk_mono (args : Args) (kind raw_subdir csv_subdir : String)
    (env : StreamEnv) (st : StreamState) (p : String) (hp : p ∈ st.disk) :
    p ∈ (processStream args kind raw_subdir csv_subdir env st).state.disk := by
  obtain ⟨poll, dl, ex⟩ := env
  rcases poll with e | olink
  · simpa [processStream] using hp
  · rcases olink with _ | link
    · by_cases h : args.ignore_malformed <;> simp [processStream, h, hp]
    · by_cases h1 : link = ""
      · by_cases h : args.ignore_malformed <;> simp [processStream, h1, h, hp]
      · by_cases h2 : safe_filename link ∈ st.seen
        · simp [processStream, h1, h2, hp]
        · by_cases h3 : zipPathOf args raw_subdir (safe_filename link) ∈ st.disk
          · rw [processStream_skip_on_disk args kind raw_subdir csv_subdir
              ⟨Except.ok (some link), dl, ex⟩ st link rfl h1 h2 h3, extractAndMark_disk]
            exact hp
          · rcases dl with _ | e
            · rw [processStream_download_success args kind raw_subdir csv_subdir
                ⟨Except.ok (some link), none, ex⟩ st link rfl h1 h2 h3 rfl, extractAndMark_disk]
              exact List.mem_cons_of_mem _ hp
            · by_cases he : isExceptionSubclass e = true
              · rw [processStream_download_fail args kind raw_subdir csv_subdir
                  ⟨Except.ok (some link), some e, ex⟩ st link e rfl h1 h2 h3 rfl he]
                exact hp
              · simp [processStream, h1, h2, h3, he, hp]

/-- The step logs `infoDownloaded` for a name exactly in the branch where
the archive was not on disk and the transfer completed, so the archive of that name was absent before the step and present after it. -/
lemma infoDownloaded_disk (args : Args) (kind raw_subdir csv_subdir : String)
    (env : StreamEnv) (st : StreamState) (name : String)
    (h : Event.infoDownloaded kind name ∈
      (processStream args kind raw_subdir csv_subdir env st).events) :
    zipPathOf args raw_subdir name ∉ st.disk ∧
    zipPathOf args raw_subdir name ∈
      (processStream args kind raw_subdir csv_subdir env st).state.disk := by
  obtain ⟨poll, dl, ex⟩ := env
  rcases poll with e | olink
  · simp [processStream] at h
  · rcases olink with _ | link
    · by_cases hm : args.ignore_malformed <;> simp [processStream, hm] at h
    · by_cases h1 : link = ""
      · by_cases hm : args.ignore_malformed <;> simp [processStream, h1, hm] at h
      · by_cases h2 : safe_filename link ∈ st.seen
        · simp [processStream, h1, h2] at h
        · by_cases h3 : zipPathOf args raw_subdir (safe_filename link) ∈ st.disk
          · rw [processStream_skip_on_disk args kind raw_subdir csv_subdir
              ⟨Except.ok (some link), dl, ex⟩ st link rfl h1 h2 h3] at h
            rcases extractAndMark_events_sub args kind csv_subdir (safe_filename link) ex st
              [Event.infoSkipOnDisk kind (safe_filename link)] _ h with hh | ⟨d, hh⟩ | hh <;>
              simp at hh
          · rcases dl with _ | e
            · rw [processStream_download_success args kind raw_subdir csv_subdir
                ⟨Except.ok (some link), none, ex⟩ st link rfl h1 h2 h3 rfl] at h ⊢
              rcases extractAndMark_events_sub args kind csv_subdir (safe_filename link) ex
                ⟨st.seen, zipPathOf args raw_subdir (safe_filename link) :: st.disk⟩
                [Event.infoDownloading kind (safe_filename link), Event.downloadTransfer link,
                 Event.infoDownloaded kind (safe_filename link)] _ h with hh | ⟨d, hh⟩ | hh
              · simp at hh
                subst hh
                refine ⟨h3, ?_⟩
                rw [extractAndMark_disk]
                exact List.mem_cons_self _ _
              · simp at hh
              · simp at hh
            · by_cases he : isExceptionSubclass e = true
              · rw [processStream_download_fail args kind raw_subdir csv_subdir
                  ⟨Except.ok (some link), some e, ex⟩ st link e rfl h1 h2 h3 rfl he] at h
                simp at h
              · simp [processStream, h1, h2, h3, he] at h

/-- Once the archive of an artifact is on disk, no later cycle downloads it
again. -/
lemma countDownloads_zero (args : Args) (kind raw_subdir csv_subdir name : String)
    (envs : List StreamEnv) :
    ∀ st : StreamState, zipPathOf args raw_subdir name ∈ st.disk →
      countDownloads kind name (streamTrace args kind raw_subdir csv_subdir envs st) = 0 := by
  induction envs with
  | nil => intro st _; rfl
  | cons env rest ih =>
      intro st h
      have hnot : Event.infoDownloaded kind name ∉
          (processStream args kind raw_subdir csv_subdir env st).events :=
        fun hmem => (infoDownloaded_disk args kind raw_subdir csv_subdir env st name hmem).1 h
      have hrec := ih (processStream args kind raw_subdir csv_subdir env st).state
        (processStream_disk_mono args kind raw_subdir csv_subdir env st _ h)
      simpa [streamTrace, countDownloads, List.filter_cons, hnot] using hrec

/-- Across any run of cycles, a given artifact name is downloaded at most
once. -/
lemma streamTrace_count_le_one (args : Args) (kind raw_subdir csv_subdir name : String)
    (envs : List StreamEnv) :
    ∀ st : StreamState,
      countDownloads kind name (streamTrace args kind raw_subdir csv_subdir envs st) ≤ 1 := by
  induction envs with
  | nil => intro st; simp [streamTrace, countDownloads]
  | cons env rest ih =>
      intro st
      by_cases h : Event.infoDownloaded kind name ∈
          (processStream args kind raw_subdir csv_subdir env st).events
      · have h2 := (infoDownloaded_disk args kind raw_subdir csv_subdir env st name h).2
        have h3 := countDownloads_zero args kind raw_subdir csv_subdir name rest _ h2
        have hstep : countDownloads kind name
            (streamTrace args kind raw_subdir csv_subdir (env :: rest) st) =
            countDownloads kind name (streamTrace args kind raw_subdir csv_subdir rest
              (processStream args kind raw_subdir csv_subdir env st).state) + 1 := by
          simp [streamTrace, countDownloads, List.filter_cons, h]
        rw [hstep, h3]
      · have hrec := ih (processStream args kind raw_subdir csv_subdir env st).state
        simpa [streamTrace, countDownloads, List.filter_cons, h] using hrec

/-- Claim C1: for an unseen artifact whose destination path already exists
on disk, the cycle issues no network transfer for the archive and proceeds
directly to the extraction phase; consequently, over the whole process
lifetime (modelled as any sequence of cycles, with no external removal from
disk) an artifact name is downloaded at most once. -/
theorem C1_at_most_one_download :
    (∀ (args : Args) (kind raw_subdir csv_subdir : String) (env : StreamEnv)
        (st : StreamState) (link : String),
        env.poll = Except.ok (some link) → link ≠ "" →
        safe_filename link ∉ st.seen →
        zipPathOf args raw_subdir (safe_filename link) ∈ st.disk →
        (∀ u, Event.downloadTransfer u ∉
            (processStream args kind raw_subdir csv_subdir env st).events) ∧
        processStream args kind raw_subdir csv_subdir env st =
          extractAndMark args kind csv_subdir (safe_filename link) env.extractExn st
            [Event.infoSkipOnDisk kind (safe_filename link)]) ∧
    (∀ (args : Args) (kind raw_subdir csv_subdir name : String) (envs : List StreamEnv)
        (st : StreamState),
        countDownloads kind name (streamTrace args kind raw_subdir csv_subdir envs st) ≤ 1) := by
  constructor
  · intro args kind raw_subdir csv_subdir env st link hpoll hlink hseen hdisk
    have heq := processStream_skip_on_disk args kind raw_subdir csv_subdir env st link hpoll
      hlink hseen hdisk
    refine ⟨?_, heq⟩
    intro u hmem
    rw [heq] at hmem
    rcases extractAndMark_events_sub args kind csv_subdir (safe_filename link) env.extractExn st
      [Event.infoSkipOnDisk kind (safe_filename link)] _ hmem with hh | ⟨d, hh⟩ | hh <;>
      simp at hh
  · intro args kind raw_subdir csv_subdir name envs st
    exact streamTrace_count_le_one args kind raw_subdir csv_subdir name envs st

/-- Witness for C1 at the worked example: the archive is already on disk,
so no transfer event is emitted and the step is the extraction phase. -/
theorem C1_at_most_one_download_witness :
    Event.downloadTransfer linkEx ∉
      (processStream argsDefault "ENG" "rawdata_en" "csv_en"
        ⟨Except.ok (some linkEx), none, none⟩
        ⟨[], [zipPathOf argsDefault "rawdata_en" nameEx]⟩).events ∧
    processStream argsDefault "ENG" "rawdata_en" "csv_en"
        ⟨Except.ok (some linkEx), none, none⟩
        ⟨[], [zipPathOf argsDefault "rawdata_en" nameEx]⟩ =
      extractAndMark argsDefault "ENG" "csv_en" (safe_filename linkEx) none
        ⟨[], [zipPathOf argsDefault "rawdata_en" nameEx]⟩
        [Event.infoSkipOnDisk "ENG" (safe_filename linkEx)] := by
  have h := C1_at_most_one_download.1 argsDefault "ENG" "rawdata_en" "csv_en"
    ⟨Except.ok (some linkEx), none, none⟩ ⟨[], [zipPathOf argsDefault "rawdata_en" nameEx]⟩
    linkEx rfl (by decide) (by decide) (by decide)
  exact ⟨h.1 linkEx, h.2⟩

/-- Lemma: `takeWhile` passes over a block whose elements all satisfy the
predicate. -/
lemma takeWhile_append_all {α : Type} (p : α → Bool) (l₁ l₂ : List α)
    (h : ∀ a ∈ l₁, p a = true) :
    (l₁ ++ l₂).takeWhile p = l₁ ++ l₂.takeWhile p := by
  induction l₁ with
  | nil => simp
  | cons a l ih =>
      have ha := h a (List.mem_cons_self a l)
      simp [List.takeWhile_cons, ha, ih (fun b hb => h b (List.mem_cons_of_mem a hb))]

/-- Lemma: `dropWhile` passes over a block whose elements all satisfy the
predicate. -/
lemma dropWhile_append_all {α : Type} (p : α → Bool) (l₁ l₂ : List α)
    (h : ∀ a ∈ l₁, p a = true) :
    (l₁ ++ l₂).dropWhile p = l₂.dropWhile p := by
  induction l₁ with
  | nil => simp
  | cons a l ih =>
      have ha := h a (List.mem_cons_self a l)
      simp [List.dropWhile_cons, ha, ih (fun b hb => h b (List.mem_cons_of_mem a hb))]

/-- Applying `with_suffix` to a name of the form `<stem>.zip` (non-empty stem)
replaces the `.zip` part. -/
lemma pyWithSuffixName_zip (stem : List Char) (suf : List Char) (hstem : stem ≠ []) :
    pyWithSuffixName (stem ++ ['.', 'z', 'i', 'p']) suf = stem ++ suf := by
  unfold pyWithSuffixName
  have hrev : (stem ++ ['.', 'z', 'i', 'p']).reverse = 'p' :: 'i' :: 'z' :: '.' :: stem.reverse := by
    simp
  rw [hrev]
  simp [List.takeWhile_cons, List.dropWhile_cons, hstem]

/-- Applying `with_suffix` to a full path `<dir>/<stem>.zip` replaces the final
`.zip` with the new suffix, keeping the directory part. -/
lemma pyWithSuffix_replace (dir stem : List Char) (suf : String)
    (hstem : stem ≠ []) (hslash : ∀ c ∈ stem, c ≠ '/') :
    pyWithSuffix ⟨dir ++ '/' :: (stem ++ ".zip".data)⟩ suf =
      ⟨dir ++ '/' :: (stem ++ suf.data)⟩ := by
  have hz : (".zip".data : List Char) = ['.', 'z', 'i', 'p'] := rfl
  have hrev : (dir ++ '/' :: (stem ++ ".zip".data)).reverse =
      'p' :: 'i' :: 'z' :: '.' :: (stem.reverse ++ '/' :: dir.reverse) := by
    rw [hz]; simp
  have hs1 : ∀ c ∈ stem.reverse, (!(c == '/')) = true := by
    intro c hc
    have := hslash c (List.mem_reverse.mp hc)
    simpa using this
  have htw4 : List.takeWhile (fun c => !(c == '/'))
      ('p' :: 'i' :: 'z' :: '.' :: (stem.reverse ++ '/' :: dir.reverse)) =
      'p' :: 'i' :: 'z' :: '.' :: stem.reverse := by
    simp [List.takeWhile_cons, takeWhile_append_all _ _ _ hs1]
  have hdw4 : List.dropWhile (fun c => !(c == '/'))
      ('p' :: 'i' :: 'z' :: '.' :: (stem.reverse ++ '/' :: dir.reverse)) =
      '/' :: dir.reverse := by
    simp [List.dropWhile_cons, dropWhile_append_all _ _ _ hs1]
  have hname : ('p' :: 'i' :: 'z' :: '.' :: stem.reverse).reverse =
      stem ++ ['.', 'z', 'i', 'p'] := by simp
  unfold pyWithSuffix
  rw [hrev]
  simp only [htw4, hdw4]
  rw [hname, pyWithSuffixName_zip stem suf.data hstem]
  simp

/-- An operation that touches only `tmp` leaves every other file entry
unchanged. -/
lemma applyOp_files_untouched (fs : FS) (op : FSOp) (tmp q : String)
    (h : touchesOnlyFile tmp op) (hq : q ≠ tmp) : (applyOp fs op).files q = fs.files q := by
  cases op with
  | mkdirParents p => rfl
  | openTrunc p =>
      simp only [touchesOnlyFile] at h
      subst h
      simp [applyOp, hq]
  | writeChunk p c =>
      simp only [touchesOnlyFile] at h
      subst h
      simp [applyOp, hq]
  | rename s d => exact absurd h (by simp [touchesOnlyFile])

/-- A sequence of operations that each touch only `tmp` leaves every other
file entry unchanged. -/
lemma applyOps_files_untouched (tmp q : String) (hq : q ≠ tmp) :
    ∀ (ops : List FSOp) (fs : FS), (∀ op ∈ ops, touchesOnlyFile tmp op) →
      (applyOps fs ops).files q = fs.files q := by
  intro ops
  induction ops with
  | nil => intro fs _; rfl
  | cons op rest ih =>
      intro fs h
      calc (applyOps fs (op :: rest)).files q
          = (applyOps (applyOp fs op) rest).files q := rfl
        _ = (applyOp fs op).files q :=
            ih (applyOp fs op) (fun o ho => h o (List.mem_cons_of_mem _ ho))
        _ = fs.files q := applyOp_files_untouched fs op tmp q (h op (List.mem_cons_self _ _)) hq

/-- Streaming chunks into an open file appends their concatenation. -/
lemma applyOps_writeChunks_files (tmp : String) (cs : List (List Nat)) :
    ∀ (fs : FS) (cur : List Nat), fs.files tmp = some cur →
      (applyOps fs (cs.map (fun c => FSOp.writeChunk tmp c))).files tmp =
        some (cur ++ cs.flatten) := by
  induction cs with
  | nil => intro fs cur h; simpa [applyOps] using h
  | cons c rest ih =>
      intro fs cur h
      have hstep : (applyOp fs (FSOp.writeChunk tmp c)).files tmp = some (cur ++ c) := by
        simp [applyOp, h]
      have hrec := ih (applyOp fs (FSOp.writeChunk tmp c)) (cur ++ c) hstep
      simpa [applyOps, List.append_assoc] using hrec

/-- Chunk writes do not change directories. -/
lemma applyOps_writeChunks_dirs (tmp : String) (cs : List (List Nat)) :
    ∀ fs : FS, (applyOps fs (cs.map (fun c => FSOp.writeChunk tmp c))).dirs = fs.dirs := by
  induction cs with
  | nil => intro fs; rfl
  | cons c rest ih => intro fs; exact ih (applyOp fs (FSOp.writeChunk tmp c))

/-- Function `applyOps` distributes over list append. -/
lemma applyOps_append (fs : FS) (l₁ l₂ : List FSOp) :
    applyOps fs (l₁ ++ l₂) = applyOps (applyOps fs l₁) l₂ := by
  simp [applyOps, List.foldl_append]

/-- Every operation before the final rename of a download touches only the
temporary file (directories aside). -/
lemma pre_ops_touches (dest tmp : String) (cs : List (List Nat)) :
    ∀ op ∈ (FSOp.mkdirParents dest :: FSOp.openTrunc tmp ::
        cs.map (fun c => FSOp.writeChunk tmp c)), touchesOnlyFile tmp op := by
  intro op hop
  simp only [List.mem_cons, List.mem_map] at hop
  rcases hop with h | h | ⟨c, _, h⟩ <;> subst h <;> simp [touchesOnlyFile]

/-- Function `downloadOps` written as its pre-rename prefix plus the final rename. -/
lemma downloadOps_eq (dest : String) (body : List (List Nat)) :
    downloadOps dest body =
      (FSOp.mkdirParents dest :: FSOp.openTrunc (pyWithSuffix dest ".part") ::
        (body.filter (fun c => !c.isEmpty)).map
          (fun c => FSOp.writeChunk (pyWithSuffix dest ".part") c)) ++
      [FSOp.rename (pyWithSuffix dest ".part") dest] := by
  simp [downloadOps]

/-- A `.zip` destination differs from its `.part` temporary path. -/
lemma dest_ne_part (dir stem : List Char) (hstem : stem ≠ []) (hslash : ∀ c ∈ stem, c ≠ '/') :
    (⟨dir ++ '/' :: (stem ++ ".zip".data)⟩ : String) ≠
      pyWithSuffix ⟨dir ++ '/' :: (stem ++ ".zip".data)⟩ ".part" := by
  rw [pyWithSuffix_replace dir stem ".part" hstem hslash]
  intro h
  have hd : dir ++ '/' :: (stem ++ ".zip".data) = dir ++ '/' :: (stem ++ ".part".data) :=
    congrArg String.data h
  rw [show (".zip".data : List Char) = ['.', 'z', 'i', 'p'] from rfl,
    show (".part".data : List Char) = ['.', 'p', 'a', 'r', 't'] from rfl] at hd
  have hlen := congrArg List.length hd
  simp [List.length_append] at hlen

/-- Applying a complete `download_zip` run stores the streamed body at the
destination. -/
lemma downloadOps_complete (dest : String) (body : List (List Nat)) (fs : FS) :
    (applyOps fs (downloadOps dest body)).files dest =
      some ((body.filter (fun c => !c.isEmpty)).flatten) := by
  have hopen : (applyOp (applyOp fs (FSOp.mkdirParents dest))
      (FSOp.openTrunc (pyWithSuffix dest ".part"))).files (pyWithSuffix dest ".part") =
      some [] := by simp [applyOp]
  have hW := applyOps_writeChunks_files (pyWithSuffix dest ".part")
    (body.filter (fun c => !c.isEmpty))
    (applyOp (applyOp fs (FSOp.mkdirParents dest))
      (FSOp.openTrunc (pyWithSuffix dest ".part"))) [] hopen
  have hfold : applyOps fs
      (FSOp.mkdirParents dest :: FSOp.openTrunc (pyWithSuffix dest ".part") ::
        (body.filter (fun c => !c.isEmpty)).map
          (fun c => FSOp.writeChunk (pyWithSuffix dest ".part") c)) =
      applyOps (applyOp (applyOp fs (FSOp.mkdirParents dest))
        (FSOp.openTrunc (pyWithSuffix dest ".part")))
        ((body.filter (fun c => !c.isEmpty)).map
          (fun c => FSOp.writeChunk (pyWithSuffix dest ".part") c)) := rfl
  have hlast : ∀ X : FS, applyOps X [FSOp.rename (pyWithSuffix dest ".part") dest] =
      applyOp X (FSOp.rename (pyWithSuffix dest ".part") dest) := fun X => rfl
  have hren : ∀ X : FS, (applyOp X (FSOp.rename (pyWithSuffix dest ".part") dest)).files dest =
      X.files (pyWithSuffix dest ".part") := by
    intro X; simp [applyOp]
  rw [downloadOps_eq, applyOps_append, hfold, hlast, hren, hW]
  simp

/-- Applying any strict prefix of a `download_zip` run (any failure point)
leaves the file entry of the destination untouched. -/
lemma downloadOps_prefix_preserves (dest : String) (body : List (List Nat)) (fs : FS)
    (hne : dest ≠ pyWithSuffix dest ".part") (k : Nat)
    (hk : k < (downloadOps dest body).length) :
    (applyOps fs ((downloadOps dest body).take k)).files dest = fs.files dest := by
  rw [downloadOps_eq] at hk ⊢
  have hlen : k ≤ (FSOp.mkdirParents dest :: FSOp.openTrunc (pyWithSuffix dest ".part") ::
      (body.filter (fun c => !c.isEmpty)).map
        (fun c => FSOp.writeChunk (pyWithSuffix dest ".part") c)).length := by
    simp only [List.length_append, List.length_cons, List.length_nil,
      List.length_map] at hk ⊢
    omega
  rw [List.take_append_of_le_length hlen]
  exact applyOps_files_untouched (pyWithSuffix dest ".part") dest hne _ fs
    (fun op hop => pre_ops_touches dest (pyWithSuffix dest ".part") _ op
      (List.take_subset _ _ hop))

/-- Claim C2: `download_zip` uses 1 MiB chunks, streams into a `.part`
temporary in the same directory (the destination with its final `.zip`
replaced by `.part`), performs exactly one rename — the final operation —
onto the destination, and after any strict prefix of its operation sequence
(any failure point, including mid-stream) the file entry of the destination is
exactly what it was before the call; only the completed sequence stores the
full body at the destination. -/
theorem C2_atomic_download :
    ∀ (dir stem : List Char) (fs : FS) (body : List (List Nat)),
      stem ≠ [] → (∀ c ∈ stem, c ≠ '/') →
      chunkSizeBytes = 1048576 ∧
      pyWithSuffix ⟨dir ++ '/' :: (stem ++ ".zip".data)⟩ ".part" =
        ⟨dir ++ '/' :: (stem ++ ".part".data)⟩ ∧
      (downloadOps ⟨dir ++ '/' :: (stem ++ ".zip".data)⟩ body).getLast? =
        some (FSOp.rename (pyWithSuffix ⟨dir ++ '/' :: (stem ++ ".zip".data)⟩ ".part")
          ⟨dir ++ '/' :: (stem ++ ".zip".data)⟩) ∧
      (∀ op ∈ (downloadOps ⟨dir ++ '/' :: (stem ++ ".zip".data)⟩ body).dropLast,
          ∀ s d, op ≠ FSOp.rename s d) ∧
      (∀ k, k < (downloadOps ⟨dir ++ '/' :: (stem ++ ".zip".data)⟩ body).length →
        (applyOps fs ((downloadOps ⟨dir ++ '/' :: (stem ++ ".zip".data)⟩ body).take k)).files
            ⟨dir ++ '/' :: (stem ++ ".zip".data)⟩ =
          fs.files ⟨dir ++ '/' :: (stem ++ ".zip".data)⟩) ∧
      (applyOps fs (downloadOps ⟨dir ++ '/' :: (stem ++ ".zip".data)⟩ body)).files
          ⟨dir ++ '/' :: (stem ++ ".zip".data)⟩ =
        some ((body.filter (fun c => !c.isEmpty)).flatten) := by
  intro dir stem fs body hstem hslash
  refine ⟨by decide, pyWithSuffix_replace dir stem ".part" hstem hslash, ?_, ?_, ?_,
    downloadOps_complete _ body fs⟩
  · rw [downloadOps_eq, List.getLast?_concat]
  · intro op hop s d
    rw [downloadOps_eq, List.dropLast_concat] at hop
    simp only [List.mem_cons, List.mem_map] at hop
    rcases hop with h | h | ⟨c, _, h⟩ <;> subst h <;> simp
  · exact downloadOps_prefix_preserves _ body fs (dest_ne_part dir stem hstem hslash)

/-- Witness for C2 on a concrete interrupted and completed download. -/
theorem C2_atomic_download_witness :
    pyWithSuffix ⟨dirEx ++ '/' :: (stemEx ++ ".zip".data)⟩ ".part" =
      ⟨dirEx ++ '/' :: (stemEx ++ ".part".data)⟩ ∧
    (applyOps fsEx ((downloadOps ⟨dirEx ++ '/' :: (stemEx ++ ".zip".data)⟩ bodyEx).take 3)).files
        ⟨dirEx ++ '/' :: (stemEx ++ ".zip".data)⟩ =
      fsEx.files ⟨dirEx ++ '/' :: (stemEx ++ ".zip".data)⟩ ∧
    (applyOps fsEx (downloadOps ⟨dirEx ++ '/' :: (stemEx ++ ".zip".data)⟩ bodyEx)).files
        ⟨dirEx ++ '/' :: (stemEx ++ ".zip".data)⟩ =
      some ((bodyEx.filter (fun c => !c.isEmpty)).flatten) := by
  have h := C2_atomic_download dirEx stemEx fsEx bodyEx (by decide) (by decide)
  exact ⟨h.2.1, h.2.2.2.2.1 3 (by decide), h.2.2.2.2.2⟩

/-- The first `j + 2` operations of a download: create directories, open the
temporary, write the first `j` chunks. -/
lemma downloadOps_take_front (dest : String) (body : List (List Nat)) (j : Nat)
    (hj : j ≤ (body.filter (fun c => !c.isEmpty)).length) :
    (downloadOps dest body).take (j + 2) =
      FSOp.mkdirParents dest :: FSOp.openTrunc (pyWithSuffix dest ".part") ::
        ((body.filter (fun c => !c.isEmpty)).take j).map
          (fun c => FSOp.writeChunk (pyWithSuffix dest ".part") c) := by
  rw [downloadOps_eq]
  have hshift : (FSOp.mkdirParents dest :: FSOp.openTrunc (pyWithSuffix dest ".part") ::
      (body.filter (fun c => !c.isEmpty)).map
        (fun c => FSOp.writeChunk (pyWithSuffix dest ".part") c)) ++
      [FSOp.rename (pyWithSuffix dest ".part") dest] =
      FSOp.mkdirParents dest :: FSOp.openTrunc (pyWithSuffix dest ".part") ::
        ((body.filter (fun c => !c.isEmpty)).map
          (fun c => FSOp.writeChunk (pyWithSuffix dest ".part") c) ++
          [FSOp.rename (pyWithSuffix dest ".part") dest]) := by simp
  rw [hshift, show j + 2 = (j + 1) + 1 from rfl, List.take_succ_cons, List.take_succ_cons,
    List.take_append_of_le_length (by simpa using hj), ← List.map_take]

/-- Claim C10: a `download_zip` run that fails after creating its temporary
file has, as its only filesystem effects, the creation of the parent
directories of the destination and a leftover partial temporary whose path is the
destination with its final `.zip` replaced by `.part`; every other file
entry — the destination included — is untouched, nothing deletes the stale
temporary (no operation of the run is a rename, the only removing
operation), and the first two operations of a retry reopen the temporary,
truncating it to empty. -/
theorem C10_failed_download_frame :
    ∀ (dir stem : List Char) (fs : FS) (body body2 : List (List Nat)) (j : Nat),
      stem ≠ [] → (∀ c ∈ stem, c ≠ '/') →
      j ≤ (body.filter (fun c => !c.isEmpty)).length →
      pyWithSuffix ⟨dir ++ '/' :: (stem ++ ".zip".data)⟩ ".part" =
        ⟨dir ++ '/' :: (stem ++ ".part".data)⟩ ∧
      (∀ q, q ≠ pyWithSuffix ⟨dir ++ '/' :: (stem ++ ".zip".data)⟩ ".part" →
        (applyOps fs ((downloadOps ⟨dir ++ '/' :: (stem ++ ".zip".data)⟩ body).take
            (j + 2))).files q = fs.files q) ∧
      (applyOps fs ((downloadOps ⟨dir ++ '/' :: (stem ++ ".zip".data)⟩ body).take
          (j + 2))).files (pyWithSuffix ⟨dir ++ '/' :: (stem ++ ".zip".data)⟩ ".part") =
        some (((body.filter (fun c => !c.isEmpty)).take j).flatten) ∧
      (applyOps fs ((downloadOps ⟨dir ++ '/' :: (stem ++ ".zip".data)⟩ body).take
          (j + 2))).dirs = parentDirs ⟨dir ++ '/' :: (stem ++ ".zip".data)⟩ ++ fs.dirs ∧
      (∀ op ∈ (downloadOps ⟨dir ++ '/' :: (stem ++ ".zip".data)⟩ body).take (j + 2),
          ∀ s d, op ≠ FSOp.rename s d) ∧
      (applyOps
          (applyOps fs ((downloadOps ⟨dir ++ '/' :: (stem ++ ".zip".data)⟩ body).take (j + 2)))
          ((downloadOps ⟨dir ++ '/' :: (stem ++ ".zip".data)⟩ body2).take 2)).files
          (pyWithSuffix ⟨dir ++ '/' :: (stem ++ ".zip".data)⟩ ".part") = some [] := by
  intro dir stem fs body body2 j hstem hslash hj
  have htake := downloadOps_take_front ⟨dir ++ '/' :: (stem ++ ".zip".data)⟩ body j hj
  refine ⟨pyWithSuffix_replace dir stem ".part" hstem hslash, ?_, ?_, ?_, ?_, ?_⟩
  · intro q hq
    rw [htake]
    exact applyOps_files_untouched _ q hq _ fs (pre_ops_touches _ _ _)
  · rw [htake]
    have hopen : (applyOp (applyOp fs
        (FSOp.mkdirParents ⟨dir ++ '/' :: (stem ++ ".zip".data)⟩))
        (FSOp.openTrunc (pyWithSuffix ⟨dir ++ '/' :: (stem ++ ".zip".data)⟩ ".part"))).files
        (pyWithSuffix ⟨dir ++ '/' :: (stem ++ ".zip".data)⟩ ".part") = some [] := by
      simp [applyOp]
    have hW := applyOps_writeChunks_files
      (pyWithSuffix ⟨dir ++ '/' :: (stem ++ ".zip".data)⟩ ".part")
      ((body.filter (fun c => !c.isEmpty)).take j)
      (applyOp (applyOp fs (FSOp.mkdirParents ⟨dir ++ '/' :: (stem ++ ".zip".data)⟩))
        (FSOp.openTrunc (pyWithSuffix ⟨dir ++ '/' :: (stem ++ ".zip".data)⟩ ".part"))) [] hopen
    simpa using hW
  · rw [htake]
    have hfold : applyOps fs
        (FSOp.mkdirParents (⟨dir ++ '/' :: (stem ++ ".zip".data)⟩ : String) ::
          FSOp.openTrunc (pyWithSuffix ⟨dir ++ '/' :: (stem ++ ".zip".data)⟩ ".part") ::
          ((body.filter (fun c => !c.isEmpty)).take j).map
            (fun c => FSOp.writeChunk
              (pyWithSuffix ⟨dir ++ '/' :: (stem ++ ".zip".data)⟩ ".part") c)) =
        applyOps (applyOp (applyOp fs
            (FSOp.mkdirParents ⟨dir ++ '/' :: (stem ++ ".zip".data)⟩))
            (FSOp.openTrunc (pyWithSuffix ⟨dir ++ '/' :: (stem ++ ".zip".data)⟩ ".part")))
          (((body.filter (fun c => !c.isEmpty)).take j).map
            (fun c => FSOp.writeChunk
              (pyWithSuffix ⟨dir ++ '/' :: (stem ++ ".zip".data)⟩ ".part") c)) := rfl
    rw [hfold, applyOps_writeChunks_dirs]
    rfl
  · intro op hop s d
    rw [htake] at hop
    simp only [List.mem_cons, List.mem_map] at hop
    rcases hop with h | h | ⟨c, _, h⟩ <;> subst h <;> simp
  · have htake2 : (downloadOps ⟨dir ++ '/' :: (stem ++ ".zip".data)⟩ body2).take 2 =
        [FSOp.mkdirParents ⟨dir ++ '/' :: (stem ++ ".zip".data)⟩,
         FSOp.openTrunc (pyWithSuffix ⟨dir ++ '/' :: (stem ++ ".zip".data)⟩ ".part")] := by
      rw [downloadOps_eq]
      rfl
    rw [htake2]
    have hlast2 : ∀ X : FS,
        applyOps X [FSOp.mkdirParents ⟨dir ++ '/' :: (stem ++ ".zip".data)⟩,
          FSOp.openTrunc (pyWithSuffix ⟨dir ++ '/' :: (stem ++ ".zip".data)⟩ ".part")] =
        applyOp (applyOp X (FSOp.mkdirParents ⟨dir ++ '/' :: (stem ++ ".zip".data)⟩))
          (FSOp.openTrunc (pyWithSuffix ⟨dir ++ '/' :: (stem ++ ".zip".data)⟩ ".part")) :=
      fun X => rfl
    rw [hlast2]
    simp [applyOp]

/-- Witness for C10: failing after one chunk leaves the destination absent,
the partial temporary in place, and a retry truncates it. -/
theorem C10_failed_download_frame_witness :
    (applyOps fsEx ((downloadOps ⟨dirEx ++ '/' :: (stemEx ++ ".zip".data)⟩ bodyEx).take
        (1 + 2))).files ⟨dirEx ++ '/' :: (stemEx ++ ".zip".data)⟩ = none ∧
    (applyOps fsEx ((downloadOps ⟨dirEx ++ '/' :: (stemEx ++ ".zip".data)⟩ bodyEx).take
        (1 + 2))).files (pyWithSuffix ⟨dirEx ++ '/' :: (stemEx ++ ".zip".data)⟩ ".part") =
      some (((bodyEx.filter (fun c => !c.isEmpty)).take 1).flatten) ∧
    (applyOps
        (applyOps fsEx ((downloadOps ⟨dirEx ++ '/' :: (stemEx ++ ".zip".data)⟩ bodyEx).take
          (1 + 2)))
        ((downloadOps ⟨dirEx ++ '/' :: (stemEx ++ ".zip".data)⟩ bodyEx).take 2)).files
        (pyWithSuffix ⟨dirEx ++ '/' :: (stemEx ++ ".zip".data)⟩ ".part") = some [] := by
  have h := C10_failed_download_frame dirEx stemEx fsEx bodyEx bodyEx 1 (by decide) (by decide)
    (by decide)
  refine ⟨?_, h.2.2.1, h.2.2.2.2.2⟩
  have h2 := h.2.1 ⟨dirEx ++ '/' :: (stemEx ++ ".zip".data)⟩ ?_
  · rw [h2]
    rfl
  · rw [h.1]
    intro heq
    have := congrArg (fun s => s.data.length) heq
    simp [List.length_append] at this
